import Mathlib

/-!
Shallow embedding of the multisig wallet contract
(`src/templates/multisig/src/lib.rs`, `MultisigWallet`).

Addresses are modeled as `Nat`.  The Soroban storage (instance keys
`signers`, `threshold`, `prop_cnt`, `init`, `token` and one persistent key
per proposal id) is modeled as the record `MState`; the per-proposal
persistent map is an association list keyed by proposal id, written with
`setProposal` (overwrite-or-append, as `storage.set` behaves) and read
with `lookupProposal`.

Every public operation returns `Except MultisigError α × MState`: the
second component is the durable state at the moment control returned, so
an early `return Err(..)` in the source corresponds to returning the
input state unchanged, and the all-or-nothing property is a real theorem
rather than an artifact of the encoding.  `require_auth` aborts the whole
host call on failure (no state change, no contract error), so it is not
part of the embedding; likewise the external `token.transfer` call is
modeled by the `TransferEvent` the contract emits (a trap inside it rolls
back the whole call at host level).  The u32/u64 machine integers are
modeled on `Nat`: the only arithmetic is the proposal-counter increment,
and Soroban contract builds trap on overflow rather than wrapping.
-/

abbrev Addr := Nat

inductive MultisigError where
  | AlreadyInitialized
  | NotInitialized
  | InvalidThreshold
  | NotASigner
  | ProposalNotFound
  | AlreadyApproved
  | NotApproved
  | ThresholdNotMet
  | AlreadyExecuted
  | ProposalExpired
  | DuplicateSigner
  | EmptySigners
  deriving DecidableEq, Repr

inductive ProposalStatus where
  | Active
  | Executed
  deriving DecidableEq, Repr

inductive ProposalAction where
  | Transfer (dest : Addr) (amount : Int)
  | UpdateSigners (newSigners : List Addr) (newThreshold : Nat)
  deriving DecidableEq, Repr

structure Proposal where
  id : Nat
  proposer : Addr
  action : ProposalAction
  approvals : List Addr
  status : ProposalStatus
  expiration : Nat
  deriving DecidableEq, Repr

/-- The durable contract state.  `inited` is the `init` instance flag
(`INITIALIZED` in the source); `token` is the optional `token` instance
key written by `set_token`. -/
structure MState where
  inited : Bool
  signers : List Addr
  threshold : Nat
  propCount : Nat
  token : Option Addr
  proposals : List (Nat × Proposal)
  deriving DecidableEq, Repr

/-- The state of fresh storage: nothing written yet. -/
def MState.empty : MState :=
  { inited := false, signers := [], threshold := 0, propCount := 0,
    token := none, proposals := [] }

/-- Read of the persistent key `proposal_key id`. -/
def lookupProposal : List (Nat × Proposal) → Nat → Option Proposal
  | [], _ => none
  | (k, p) :: rest, id => if k = id then some p else lookupProposal rest id

/-- Write of the persistent key `proposal_key id`: overwrite if present,
append otherwise. -/
def setProposal : List (Nat × Proposal) → Nat → Proposal → List (Nat × Proposal)
  | [], id, p => [(id, p)]
  | (k, q) :: rest, id, p =>
    if k = id then (id, p) :: rest else (k, q) :: setProposal rest id p

/-- The duplicate scan of `initialize`: walk the list with the set of
already `seen` addresses, reporting `true` on the first repeat. -/
def dupCheck (seen : List Addr) : List Addr → Bool
  | [] => false
  | s :: rest => seen.contains s || dupCheck (s :: seen) rest

/-- The removal loop of `revoke_approval`: drop the first occurrence of
`signer`, keep everything else in order, and report whether it was found. -/
def removeFirst (signer : Addr) : List Addr → Bool × List Addr
  | [] => (false, [])
  | a :: rest =>
    if a = signer then (true, rest)
    else
      let r := removeFirst signer rest
      (r.1, a :: r.2)

/-- Whether an `Except` result is a success. -/
def okB {α : Type} : Except MultisigError α → Bool
  | .ok _ => true
  | .error _ => false

/-- The argument of the external `token.transfer` call made by a
`Transfer` execution: the token contract used, and the from/to/amount
passed to it. -/
structure TransferEvent where
  tokenAddr : Addr
  fromAddr : Addr
  toAddr : Addr
  amount : Int
  deriving DecidableEq, Repr

namespace MultisigWallet

/-- Models `require_initialized`. -/
def require_init (st : MState) : Except MultisigError Unit :=
  if st.inited then .ok () else .error .NotInitialized

/-- Models `require_signer`. -/
def require_signer (st : MState) (addr : Addr) : Except MultisigError Unit :=
  if st.signers.contains addr then .ok () else .error .NotASigner

/-- Models `load_proposal`. -/
def load_proposal (st : MState) (id : Nat) : Except MultisigError Proposal :=
  match lookupProposal st.proposals id with
  | some p => .ok p
  | none => .error .ProposalNotFound

/-- Models `require_active`, with the current ledger sequence passed in. -/
def require_active (seq : Nat) (p : Proposal) : Except MultisigError Unit :=
  if p.status = .Executed then .error .AlreadyExecuted
  else if seq > p.expiration then .error .ProposalExpired
  else .ok ()

/-- Models `initialize` of the source (the name is shortened here). -/
def init_wallet (st : MState) (signers : List Addr) (threshold : Nat) :
    Except MultisigError Unit × MState :=
  if st.inited then (.error .AlreadyInitialized, st)
  else if signers.isEmpty then (.error .EmptySigners, st)
  else if threshold = 0 ∨ signers.length < threshold then (.error .InvalidThreshold, st)
  else if dupCheck [] signers then (.error .DuplicateSigner, st)
  else (.ok (), { st with inited := true, signers := signers,
                          threshold := threshold, propCount := 0 })

/-- Models `create_proposal`. -/
def create_proposal (st : MState) (proposer : Addr) (action : ProposalAction)
    (expiration_ledger : Nat) : Except MultisigError Nat × MState :=
  match require_init st with
  | .error e => (.error e, st)
  | .ok _ =>
    match require_signer st proposer with
    | .error e => (.error e, st)
    | .ok _ =>
      let next_id := st.propCount + 1
      let p : Proposal :=
        { id := next_id, proposer := proposer, action := action,
          approvals := [], status := .Active, expiration := expiration_ledger }
      (.ok next_id, { st with proposals := setProposal st.proposals next_id p,
                              propCount := next_id })

/-- Models `approve`. -/
def approve (st : MState) (seq : Nat) (signer : Addr) (proposal_id : Nat) :
    Except MultisigError Unit × MState :=
  match require_init st with
  | .error e => (.error e, st)
  | .ok _ =>
    match require_signer st signer with
    | .error e => (.error e, st)
    | .ok _ =>
      match load_proposal st proposal_id with
      | .error e => (.error e, st)
      | .ok p =>
        match require_active seq p with
        | .error e => (.error e, st)
        | .ok _ =>
          if p.approvals.contains signer then (.error .AlreadyApproved, st)
          else
            (.ok (), { st with proposals := setProposal st.proposals proposal_id
                                 { p with approvals := p.approvals ++ [signer] } })

/-- Models `revoke_approval`. -/
def revoke_approval (st : MState) (seq : Nat) (signer : Addr) (proposal_id : Nat) :
    Except MultisigError Unit × MState :=
  match require_init st with
  | .error e => (.error e, st)
  | .ok _ =>
    match require_signer st signer with
    | .error e => (.error e, st)
    | .ok _ =>
      match load_proposal st proposal_id with
      | .error e => (.error e, st)
      | .ok p =>
        match require_active seq p with
        | .error e => (.error e, st)
        | .ok _ =>
          let r := removeFirst signer p.approvals
          if r.1 then
            (.ok (), { st with proposals := setProposal st.proposals proposal_id
                                 { p with approvals := r.2 } })
          else (.error .NotApproved, st)

/-- Models `execute`, with the current ledger sequence and the contract's own
address passed in.  A `Transfer` action reports the external
`token.transfer` call it makes as a `TransferEvent`. -/
def execute (st : MState) (seq : Nat) (contractAddr : Addr) (signer : Addr)
    (proposal_id : Nat) : Except MultisigError (Option TransferEvent) × MState :=
  match require_init st with
  | .error e => (.error e, st)
  | .ok _ =>
    match require_signer st signer with
    | .error e => (.error e, st)
    | .ok _ =>
      match load_proposal st proposal_id with
      | .error e => (.error e, st)
      | .ok p =>
        match require_active seq p with
        | .error e => (.error e, st)
        | .ok _ =>
          if p.approvals.length < st.threshold then (.error .ThresholdNotMet, st)
          else
            match p.action with
            | .Transfer dest amount =>
              let tok := st.token.getD contractAddr
              (.ok (some { tokenAddr := tok, fromAddr := contractAddr,
                           toAddr := dest, amount := amount }),
               { st with proposals := setProposal st.proposals proposal_id
                           { p with status := .Executed } })
            | .UpdateSigners new_signers new_threshold =>
              if new_signers.isEmpty then (.error .EmptySigners, st)
              else if new_threshold = 0 ∨ new_signers.length < new_threshold then
                (.error .InvalidThreshold, st)
              else
                (.ok none, { st with signers := new_signers,
                                     threshold := new_threshold,
                                     proposals := setProposal st.proposals proposal_id
                                       { p with status := .Executed } })

/-- Models `set_token`. -/
def set_token (st : MState) (signer : Addr) (token : Addr) :
    Except MultisigError Unit × MState :=
  match require_init st with
  | .error e => (.error e, st)
  | .ok _ =>
    match require_signer st signer with
    | .error e => (.error e, st)
    | .ok _ => (.ok (), { st with token := some token })

/-- Models `get_proposal` (note: the source calls `load_proposal` directly,
with no initialization check). -/
def get_proposal (st : MState) (proposal_id : Nat) :
    Except MultisigError Proposal × MState :=
  (load_proposal st proposal_id, st)

/-- Models `get_signers`. -/
def get_signers (st : MState) : Except MultisigError (List Addr) × MState :=
  match require_init st with
  | .error e => (.error e, st)
  | .ok _ => (.ok st.signers, st)

/-- Models `get_threshold`. -/
def get_threshold (st : MState) : Except MultisigError Nat × MState :=
  match require_init st with
  | .error e => (.error e, st)
  | .ok _ => (.ok st.threshold, st)

/-- Models `get_proposal_count`. -/
def get_proposal_count (st : MState) : Except MultisigError Nat × MState :=
  match require_init st with
  | .error e => (.error e, st)
  | .ok _ => (.ok st.propCount, st)

end MultisigWallet

open MultisigWallet

/-- One invocation of a mutating public operation, relating the durable
state before the call to the durable state after it (the four views never
write, so they are omitted). -/
inductive Step : MState → MState → Prop where
  | init_wallet (st : MState) (signers : List Addr) (threshold : Nat) :
      Step st (MultisigWallet.init_wallet st signers threshold).2
  | create_proposal (st : MState) (proposer : Addr) (action : ProposalAction)
      (expiration : Nat) :
      Step st (MultisigWallet.create_proposal st proposer action expiration).2
  | approve (st : MState) (seq : Nat) (signer : Addr) (pid : Nat) :
      Step st (MultisigWallet.approve st seq signer pid).2
  | revoke_approval (st : MState) (seq : Nat) (signer : Addr) (pid : Nat) :
      Step st (MultisigWallet.revoke_approval st seq signer pid).2
  | execute (st : MState) (seq : Nat) (contractAddr : Addr) (signer : Addr) (pid : Nat) :
      Step st (MultisigWallet.execute st seq contractAddr signer pid).2
  | set_token (st : MState) (signer : Addr) (token : Addr) :
      Step st (MultisigWallet.set_token st signer token).2

/-- A durable state reachable from fresh storage by public operations. -/
inductive Reachable : MState → Prop where
  | base : Reachable MState.empty
  | step {st st' : MState} (h : Reachable st) (hs : Step st st') : Reachable st'

/-! Helper lemmas about the storage primitives and loops. -/

theorem lookup_set_self (ps : List (Nat × Proposal)) (k : Nat) (p : Proposal) :
    lookupProposal (setProposal ps k p) k = some p := by
  induction ps with
  | nil => simp [setProposal, lookupProposal]
  | cons hd tl ih =>
    obtain ⟨k0, q⟩ := hd
    by_cases h : k0 = k
    · simp [setProposal, h, lookupProposal]
    · simp [setProposal, h, lookupProposal, ih]

theorem lookup_set_ne (ps : List (Nat × Proposal)) (k k' : Nat) (p : Proposal)
    (h : k' ≠ k) :
    lookupProposal (setProposal ps k p) k' = lookupProposal ps k' := by
  induction ps with
  | nil => simp [setProposal, lookupProposal, Ne.symm h]
  | cons hd tl ih =>
    obtain ⟨k0, q⟩ := hd
    by_cases h0 : k0 = k
    · subst h0
      simp [setProposal, lookupProposal, Ne.symm h]
    · simp [setProposal, h0, lookupProposal, ih]

theorem lookup_mem {ps : List (Nat × Proposal)} {k : Nat} {p : Proposal}
    (h : lookupProposal ps k = some p) : (k, p) ∈ ps := by
  induction ps with
  | nil => simp [lookupProposal] at h
  | cons hd tl ih =>
    obtain ⟨k0, q⟩ := hd
    by_cases h0 : k0 = k
    · subst h0
      simp [lookupProposal] at h
      simp [h]
    · simp [lookupProposal, h0] at h
      exact List.mem_cons_of_mem _ (ih h)

theorem mem_set_elim {ps : List (Nat × Proposal)} {k : Nat} {p : Proposal}
    {x : Nat × Proposal} (hx : x ∈ setProposal ps k p) : x = (k, p) ∨ x ∈ ps := by
  induction ps with
  | nil => simp [setProposal] at hx; simp [hx]
  | cons hd tl ih =>
    obtain ⟨k0, q⟩ := hd
    by_cases h0 : k0 = k
    · subst h0
      simp [setProposal] at hx
      rcases hx with h | h
      · left; simp [h]
      · right; simp [h]
    · simp [setProposal, h0] at hx
      rcases hx with h | h
      · right; simp [h]
      · rcases ih h with h1 | h1
        · left; exact h1
        · right; simp [h1]

theorem set_set_cancel {ps : List (Nat × Proposal)} {k : Nat} {p : Proposal}
    (q : Proposal) (h : lookupProposal ps k = some p) :
    setProposal (setProposal ps k q) k p = ps := by
  induction ps with
  | nil => simp [lookupProposal] at h
  | cons hd tl ih =>
    obtain ⟨k0, r⟩ := hd
    by_cases h0 : k0 = k
    · subst h0
      simp [lookupProposal] at h
      simp [setProposal, h]
    · simp [lookupProposal, h0] at h
      simp [setProposal, h0, ih h]

theorem dupCheck_false_iff (l : List Addr) : ∀ seen : List Addr,
    dupCheck seen l = false ↔ l.Nodup ∧ ∀ a ∈ l, a ∉ seen := by
  induction l with
  | nil => intro seen; simp [dupCheck]
  | cons a rest ih =>
    intro seen
    constructor
    · intro h
      have h1 : seen.contains a = false ∧ dupCheck (a :: seen) rest = false := by
        have h' := h
        simp only [dupCheck, Bool.or_eq_false_iff] at h'
        exact h'
      have ha : a ∉ seen := by
        intro hm
        have hc := h1.1
        simp [hm] at hc
      obtain ⟨hn, hs⟩ := (ih (a :: seen)).mp h1.2
      refine ⟨List.nodup_cons.mpr
        ⟨fun hm => (hs a hm) (List.mem_cons_self a seen), hn⟩, ?_⟩
      intro b hb
      rcases List.mem_cons.mp hb with rfl | hb2
      · exact ha
      · intro hbs
        exact hs b hb2 (List.mem_cons_of_mem a hbs)
    · rintro ⟨hn, hs⟩
      obtain ⟨hna, hnr⟩ := List.nodup_cons.mp hn
      have h2 : dupCheck (a :: seen) rest = false := by
        refine (ih (a :: seen)).mpr ⟨hnr, ?_⟩
        intro b hb hbs
        rcases List.mem_cons.mp hbs with rfl | hbs2
        · exact hna hb
        · exact hs b (List.mem_cons_of_mem a hb) hbs2
      simp [dupCheck, h2]
      exact hs a (List.mem_cons_self a rest)

theorem removeFirst_not_mem {s : Addr} {l : List Addr} (h : s ∉ l) :
    removeFirst s l = (false, l) := by
  induction l with
  | nil => simp [removeFirst]
  | cons a rest ih =>
    simp only [List.mem_cons, not_or] at h
    simp only [removeFirst]
    rw [if_neg (fun hh => h.1 hh.symm)]
    simp [ih h.2]

theorem removeFirst_append_self {s : Addr} {l : List Addr} (h : s ∉ l) :
    removeFirst s (l ++ [s]) = (true, l) := by
  induction l with
  | nil => simp [removeFirst]
  | cons a rest ih =>
    simp only [List.mem_cons, not_or] at h
    simp only [List.cons_append, removeFirst]
    rw [if_neg (fun hh => h.1 hh.symm)]
    simp [ih h.2]

theorem removeFirst_sublist (s : Addr) (l : List Addr) :
    ((removeFirst s l).2).Sublist l := by
  induction l with
  | nil => simp [removeFirst]
  | cons a rest ih =>
    by_cases hh : a = s
    · simp only [removeFirst, if_pos hh]
      exact List.sublist_cons_self a rest
    · simp only [removeFirst, if_neg hh]
      exact List.cons_sublist_cons.mpr ih

namespace MultisigWallet

theorem require_init_ok {st : MState} (h : st.inited = true) :
    require_init st = .ok () := by
  simp [require_init, h]

theorem require_init_ok_elim {st : MState} {u : Unit}
    (h : require_init st = .ok u) : st.inited = true := by
  cases hb : st.inited with
  | true => rfl
  | false => simp [require_init, hb] at h

theorem require_signer_ok {st : MState} {a : Addr}
    (h : st.signers.contains a = true) : require_signer st a = .ok () := by
  have hm : a ∈ st.signers := by simpa using h
  simp [require_signer, hm]

theorem require_signer_ok_elim {st : MState} {a : Addr} {u : Unit}
    (h : require_signer st a = .ok u) : st.signers.contains a = true := by
  by_cases hm : a ∈ st.signers
  · simpa using hm
  · exfalso
    simp [require_signer, hm] at h

theorem load_proposal_ok {st : MState} {id : Nat} {p : Proposal}
    (h : lookupProposal st.proposals id = some p) : load_proposal st id = .ok p := by
  simp [load_proposal, h]

theorem load_proposal_ok_elim {st : MState} {id : Nat} {p : Proposal}
    (h : load_proposal st id = .ok p) : lookupProposal st.proposals id = some p := by
  unfold load_proposal at h
  cases hl : lookupProposal st.proposals id with
  | none => rw [hl] at h; simp at h
  | some q => rw [hl] at h; simp at h; rw [h]

theorem require_active_ok {seq : Nat} {p : Proposal} (h1 : p.status = .Active)
    (h2 : seq ≤ p.expiration) : require_active seq p = .ok () := by
  simp only [require_active, h1]
  rw [if_neg (by simp), if_neg (by omega)]

theorem require_active_ok_elim {seq : Nat} {p : Proposal} {u : Unit}
    (h : require_active seq p = .ok u) : p.status = .Active ∧ seq ≤ p.expiration := by
  unfold require_active at h
  by_cases h1 : p.status = ProposalStatus.Executed
  · rw [if_pos h1] at h; simp at h
  · rw [if_neg h1] at h
    by_cases h2 : p.expiration < seq
    · rw [if_pos h2] at h; simp at h
    · refine ⟨?_, by omega⟩
      cases hs : p.status with
      | Active => rfl
      | Executed => exact absurd hs h1

end MultisigWallet

namespace MultisigWallet

/-- Case analysis of the init operation: either the state is untouched
(an error path) or all guards passed and the configuration is written. -/
theorem init_wallet_shape (st : MState) (sg : List Addr) (thr : Nat) :
    (okB (init_wallet st sg thr).1 = false ∧ (init_wallet st sg thr).2 = st) ∨
    (st.inited = false ∧ sg ≠ [] ∧ 1 ≤ thr ∧ thr ≤ sg.length ∧
     dupCheck [] sg = false ∧
     init_wallet st sg thr = (.ok (),
       { st with inited := true, signers := sg,
                 threshold := thr, propCount := 0 })) := by
  unfold init_wallet
  by_cases h1 : st.inited
  · simp [h1, okB]
  · by_cases h2 : sg.isEmpty
    · simp [h1, h2, okB]
    · by_cases h3 : thr = 0 ∨ sg.length < thr
      · simp [h1, h2, h3, okB]
      · by_cases h4 : dupCheck [] sg
        · simp [h1, h2, h3, h4, okB]
        · right
          push_neg at h3
          refine ⟨by simp [h1], by simpa using h2, by omega, by omega,
            by simpa using h4, ?_⟩
          simp [h1, h2, h3, h4]

/-- Case analysis of `create_proposal`: either the state is untouched or
the guards passed and a fresh Active proposal with empty approvals is
stored under the incremented counter. -/
theorem create_shape (st : MState) (pr : Addr) (a : ProposalAction) (exp : Nat) :
    (okB (create_proposal st pr a exp).1 = false ∧ (create_proposal st pr a exp).2 = st) ∨
    (st.inited = true ∧ st.signers.contains pr = true ∧
     create_proposal st pr a exp = (.ok (st.propCount + 1),
       { st with proposals := setProposal st.proposals (st.propCount + 1)
                   { id := st.propCount + 1, proposer := pr, action := a,
                     approvals := [], status := .Active, expiration := exp },
                 propCount := st.propCount + 1 })) := by
  unfold create_proposal
  cases h1 : require_init st with
  | error e => simp [h1, okB]
  | ok u1 =>
    simp only [h1]
    cases h2 : require_signer st pr with
    | error e => simp [h2, okB]
    | ok u2 =>
      simp only [h2]
      right
      exact ⟨require_init_ok_elim h1, require_signer_ok_elim h2, by trivial⟩

/-- Case analysis of `approve`: either the state is untouched or all
guards passed and the signer is appended to the proposal's approvals. -/
theorem approve_shape (st : MState) (seq : Nat) (s : Addr) (pid : Nat) :
    (okB (approve st seq s pid).1 = false ∧ (approve st seq s pid).2 = st) ∨
    ∃ p, lookupProposal st.proposals pid = some p ∧ p.status = .Active ∧
      seq ≤ p.expiration ∧ st.inited = true ∧ st.signers.contains s = true ∧
      p.approvals.contains s = false ∧
      approve st seq s pid = (.ok (),
        { st with proposals := setProposal st.proposals pid
                    { p with approvals := p.approvals ++ [s] } }) := by
  unfold approve
  cases h1 : require_init st with
  | error e => simp [h1, okB]
  | ok u1 =>
    simp only [h1]
    cases h2 : require_signer st s with
    | error e => simp [h2, okB]
    | ok u2 =>
      simp only [h2]
      cases h3 : load_proposal st pid with
      | error e => simp [h3, okB]
      | ok p =>
        simp only [h3]
        cases h4 : require_active seq p with
        | error e => simp [h4, okB]
        | ok u4 =>
          simp only [h4]
          by_cases h5 : p.approvals.contains s = true
          · rw [if_pos h5]
            exact Or.inl ⟨rfl, rfl⟩
          · right
            obtain ⟨hA, hE⟩ := require_active_ok_elim h4
            refine ⟨p, load_proposal_ok_elim h3, hA, hE, require_init_ok_elim h1,
              require_signer_ok_elim h2, by simpa using h5, ?_⟩
            rw [if_neg h5]

/-- Case analysis of `revoke_approval`: either the state is untouched or
all guards passed and the first occurrence of the signer is removed from
the proposal's approvals. -/
theorem revoke_shape (st : MState) (seq : Nat) (s : Addr) (pid : Nat) :
    (okB (revoke_approval st seq s pid).1 = false ∧ (revoke_approval st seq s pid).2 = st) ∨
    ∃ p, lookupProposal st.proposals pid = some p ∧ p.status = .Active ∧
      seq ≤ p.expiration ∧ st.inited = true ∧ st.signers.contains s = true ∧
      (removeFirst s p.approvals).1 = true ∧
      revoke_approval st seq s pid = (.ok (),
        { st with proposals := setProposal st.proposals pid
                    { p with approvals := (removeFirst s p.approvals).2 } }) := by
  unfold revoke_approval
  cases h1 : require_init st with
  | error e => simp [h1, okB]
  | ok u1 =>
    simp only [h1]
    cases h2 : require_signer st s with
    | error e => simp [h2, okB]
    | ok u2 =>
      simp only [h2]
      cases h3 : load_proposal st pid with
      | error e => simp [h3, okB]
      | ok p =>
        simp only [h3]
        cases h4 : require_active seq p with
        | error e => simp [h4, okB]
        | ok u4 =>
          simp only [h4]
          by_cases h5 : (removeFirst s p.approvals).1 = true
          · right
            obtain ⟨hA, hE⟩ := require_active_ok_elim h4
            refine ⟨p, load_proposal_ok_elim h3, hA, hE, require_init_ok_elim h1,
              require_signer_ok_elim h2, h5, ?_⟩
            rw [if_pos h5]
          · rw [if_neg h5]
            exact Or.inl ⟨rfl, rfl⟩

/-- Case analysis of `execute`: either the state is untouched or all
guards passed (including the quorum test against the currently stored
threshold) and the action is dispatched: a `Transfer` emits the external
token call and marks the proposal Executed; a valid `UpdateSigners`
overwrites the configuration verbatim and marks the proposal Executed. -/
theorem execute_shape (st : MState) (seq : Nat) (ca : Addr) (s : Addr) (pid : Nat) :
    (okB (execute st seq ca s pid).1 = false ∧ (execute st seq ca s pid).2 = st) ∨
    ∃ p, lookupProposal st.proposals pid = some p ∧ p.status = .Active ∧
      seq ≤ p.expiration ∧ st.inited = true ∧ st.signers.contains s = true ∧
      st.threshold ≤ p.approvals.length ∧
      ((∃ dest amount, p.action = .Transfer dest amount ∧
         execute st seq ca s pid = (.ok (some
             { tokenAddr := st.token.getD ca, fromAddr := ca,
               toAddr := dest, amount := amount }),
           { st with proposals := setProposal st.proposals pid
                       { p with status := .Executed } })) ∨
       (∃ ns nt, p.action = .UpdateSigners ns nt ∧ ns ≠ [] ∧ 1 ≤ nt ∧
         nt ≤ ns.length ∧
         execute st seq ca s pid = (.ok none,
           { st with signers := ns, threshold := nt,
                     proposals := setProposal st.proposals pid
                       { p with status := .Executed } }))) := by
  unfold execute
  cases h1 : require_init st with
  | error e => simp [h1, okB]
  | ok u1 =>
    simp only [h1]
    cases h2 : require_signer st s with
    | error e => simp [h2, okB]
    | ok u2 =>
      simp only [h2]
      cases h3 : load_proposal st pid with
      | error e => simp [h3, okB]
      | ok p =>
        simp only [h3]
        cases h4 : require_active seq p with
        | error e => simp [h4, okB]
        | ok u4 =>
          simp only [h4]
          by_cases h5 : p.approvals.length < st.threshold
          · rw [if_pos h5]
            exact Or.inl ⟨rfl, rfl⟩
          · obtain ⟨hA, hE⟩ := require_active_ok_elim h4
            cases hAct : p.action with
            | Transfer dest amount =>
              right
              refine ⟨p, load_proposal_ok_elim h3, hA, hE, require_init_ok_elim h1,
                require_signer_ok_elim h2, by omega, Or.inl ⟨dest, amount, hAct, ?_⟩⟩
              rw [if_neg h5]
              simp only [hAct]
            | UpdateSigners ns nt =>
              by_cases h6 : ns.isEmpty
              · rw [if_neg h5]
                simp only [hAct]
                rw [if_pos h6]
                exact Or.inl ⟨rfl, rfl⟩
              · by_cases h7 : nt = 0 ∨ ns.length < nt
                · rw [if_neg h5]
                  simp only [hAct]
                  rw [if_neg h6, if_pos h7]
                  exact Or.inl ⟨rfl, rfl⟩
                · right
                  have h7n := h7
                  push_neg at h7n
                  refine ⟨p, load_proposal_ok_elim h3, hA, hE, require_init_ok_elim h1,
                    require_signer_ok_elim h2, by omega,
                    Or.inr ⟨ns, nt, hAct, by simpa using h6, by omega, by omega, ?_⟩⟩
                  rw [if_neg h5]
                  simp only [hAct]
                  rw [if_neg h6, if_neg h7]

/-- Case analysis of `set_token`: either the state is untouched or the
guards passed and the token reference is stored. -/
theorem set_token_shape (st : MState) (s : Addr) (t : Addr) :
    (okB (set_token st s t).1 = false ∧ (set_token st s t).2 = st) ∨
    (st.inited = true ∧ st.signers.contains s = true ∧
     set_token st s t = (.ok (), { st with token := some t })) := by
  unfold set_token
  cases h1 : require_init st with
  | error e => simp [h1, okB]
  | ok u1 =>
    simp only [h1]
    cases h2 : require_signer st s with
    | error e => simp [h2, okB]
    | ok u2 =>
      simp only [h2]
      right
      exact ⟨require_init_ok_elim h1, require_signer_ok_elim h2, by trivial⟩

end MultisigWallet

open MultisigWallet in
/-- Invariants of every reachable durable state: stored proposal ids never
exceed the counter, stored approvals lists are duplicate-free, and before
the init flag is written no proposal exists. -/
structure StateInv (st : MState) : Prop where
  keys : ∀ kp ∈ st.proposals, kp.1 ≤ st.propCount
  apNodup : ∀ kp ∈ st.proposals, (kp.2).approvals.Nodup
  uninit : st.inited = false → st.proposals = []

theorem stateInv_empty : StateInv MState.empty := by
  constructor <;> simp [MState.empty]

theorem stateInv_step {st st' : MState} (h : StateInv st) (hs : Step st st') :
    StateInv st' := by
  cases hs with
  | init_wallet sg thr =>
    rcases MultisigWallet.init_wallet_shape st sg thr with ⟨_, he⟩ | ⟨hni, _, _, _, _, heq⟩
    · rw [he]; exact h
    · rw [heq]
      have hemp := h.uninit hni
      constructor
      · intro kp hkp
        rw [hemp] at hkp
        simp at hkp
      · intro kp hkp
        rw [hemp] at hkp
        simp at hkp
      · intro hh
        simp at hh
  | create_proposal pr a exp =>
    rcases MultisigWallet.create_shape st pr a exp with ⟨_, he⟩ | ⟨hi, hsg, heq⟩
    · rw [he]; exact h
    · rw [heq]
      constructor
      · intro kp hkp
        rcases mem_set_elim hkp with rfl | hm
        · simp
        · exact le_trans (h.keys kp hm) (Nat.le_succ _)
      · intro kp hkp
        rcases mem_set_elim hkp with rfl | hm
        · simp
        · exact h.apNodup kp hm
      · intro hh
        rw [hi] at hh
        cases hh
  | approve seq s pid =>
    rcases MultisigWallet.approve_shape st seq s pid with ⟨_, he⟩ | ⟨p, hl, _, _, hi, _, hc, heq⟩
    · rw [he]; exact h
    · rw [heq]
      constructor
      · intro kp hkp
        rcases mem_set_elim hkp with rfl | hm
        · exact h.keys (pid, p) (lookup_mem hl)
        · exact h.keys kp hm
      · intro kp hkp
        rcases mem_set_elim hkp with rfl | hm
        · have hnd := h.apNodup (pid, p) (lookup_mem hl)
          have hns : s ∉ p.approvals := by simpa using hc
          simp [List.nodup_append]
          exact ⟨hnd, hns⟩
        · exact h.apNodup kp hm
      · intro hh
        rw [hi] at hh
        cases hh
  | revoke_approval seq s pid =>
    rcases MultisigWallet.revoke_shape st seq s pid with ⟨_, he⟩ | ⟨p, hl, _, _, hi, _, hf, heq⟩
    · rw [he]; exact h
    · rw [heq]
      constructor
      · intro kp hkp
        rcases mem_set_elim hkp with rfl | hm
        · exact h.keys (pid, p) (lookup_mem hl)
        · exact h.keys kp hm
      · intro kp hkp
        rcases mem_set_elim hkp with rfl | hm
        · exact List.Nodup.sublist (removeFirst_sublist s p.approvals)
            (h.apNodup (pid, p) (lookup_mem hl))
        · exact h.apNodup kp hm
      · intro hh
        rw [hi] at hh
        cases hh
  | execute seq ca s pid =>
    rcases MultisigWallet.execute_shape st seq ca s pid with
      ⟨_, he⟩ | ⟨p, hl, _, _, hi, _, _, hdisp⟩
    · rw [he]; exact h
    · have hsub : ∀ st2 : MState,
          st2.proposals = setProposal st.proposals pid { p with status := .Executed } →
          st2.propCount = st.propCount → st2.inited = st.inited → StateInv st2 := by
        intro st2 hp2 hc2 hi2
        constructor
        · intro kp hkp
          rw [hp2] at hkp
          rw [hc2]
          rcases mem_set_elim hkp with rfl | hm
          · exact h.keys (pid, p) (lookup_mem hl)
          · exact h.keys kp hm
        · intro kp hkp
          rw [hp2] at hkp
          rcases mem_set_elim hkp with rfl | hm
          · exact h.apNodup (pid, p) (lookup_mem hl)
          · exact h.apNodup kp hm
        · intro hh
          rw [hi2, hi] at hh
          cases hh
      rcases hdisp with ⟨dest, amount, hAct, heq⟩ | ⟨ns, nt, hAct, _, _, _, heq⟩
      · rw [heq]
        exact hsub _ rfl rfl rfl
      · rw [heq]
        exact hsub _ rfl rfl rfl
  | set_token s t =>
    rcases MultisigWallet.set_token_shape st s t with ⟨_, he⟩ | ⟨hi, _, heq⟩
    · rw [he]; exact h
    · rw [heq]
      constructor
      · intro kp hkp
        exact h.keys kp hkp
      · intro kp hkp
        exact h.apNodup kp hkp
      · intro hh
        rw [hi] at hh
        cases hh

theorem reachable_inv {st : MState} (h : Reachable st) : StateInv st := by
  induction h with
  | base => exact stateInv_empty
  | step h hs ih => exact stateInv_step ih hs

/-- Example trace: fresh storage initialized with signers 0 and 1, threshold 1. -/
def exSt1 : MState := (MultisigWallet.init_wallet MState.empty [0, 1] 1).2

/-- Continuing: signer 0 proposes an UpdateSigners to the duplicated list
`[5, 5]` with new threshold 1 (expiring at ledger 100). -/
def exSt2 : MState :=
  (MultisigWallet.create_proposal exSt1 0 (.UpdateSigners [5, 5] 1) 100).2

/-- Continuing: signer 0 approves proposal 1 (quorum 1 reached). -/
def exSt3 : MState := (MultisigWallet.approve exSt2 0 0 1).2

/-- Second example trace from the same initialized wallet: signer 0
proposes an UpdateSigners with an empty signer list and threshold 0, then
approves it. -/
def exB2 : MState :=
  (MultisigWallet.create_proposal exSt1 0 (.UpdateSigners [] 0) 100).2

def exB3 : MState := (MultisigWallet.approve exB2 0 0 1).2

theorem exSt3_reachable : Reachable exSt3 :=
  Reachable.step
    (Reachable.step
      (Reachable.step Reachable.base (Step.init_wallet MState.empty [0, 1] 1))
      (Step.create_proposal exSt1 0 (.UpdateSigners [5, 5] 1) 100))
    (Step.approve exSt2 0 0 1)

theorem exB3_reachable : Reachable exB3 :=
  Reachable.step
    (Reachable.step
      (Reachable.step Reachable.base (Step.init_wallet MState.empty [0, 1] 1))
      (Step.create_proposal exSt1 0 (.UpdateSigners [] 0) 100))
    (Step.approve exB2 0 0 1)

/-- C1: every public operation (initialize, create_proposal, approve,
revoke_approval, execute, set_token), on every input state, either
completes successfully or fails; the `Except` result carries exactly one
`MultisigError`, and whenever it does, the durable state returned is
exactly the input state — there is no partial-write state. -/
theorem C1_atomicity :
    (∀ st sg thr, okB (MultisigWallet.init_wallet st sg thr).1 = true ∨
       (MultisigWallet.init_wallet st sg thr).2 = st) ∧
    (∀ st pr a exp, okB (MultisigWallet.create_proposal st pr a exp).1 = true ∨
       (MultisigWallet.create_proposal st pr a exp).2 = st) ∧
    (∀ st seq s pid, okB (MultisigWallet.approve st seq s pid).1 = true ∨
       (MultisigWallet.approve st seq s pid).2 = st) ∧
    (∀ st seq s pid, okB (MultisigWallet.revoke_approval st seq s pid).1 = true ∨
       (MultisigWallet.revoke_approval st seq s pid).2 = st) ∧
    (∀ st seq ca s pid, okB (MultisigWallet.execute st seq ca s pid).1 = true ∨
       (MultisigWallet.execute st seq ca s pid).2 = st) ∧
    (∀ st s t, okB (MultisigWallet.set_token st s t).1 = true ∨
       (MultisigWallet.set_token st s t).2 = st) := by
  refine ⟨?_, ?_, ?_, ?_, ?_, ?_⟩
  · intro st sg thr
    rcases MultisigWallet.init_wallet_shape st sg thr with ⟨_, he⟩ | ⟨_, _, _, _, _, heq⟩
    · exact Or.inr he
    · left; rw [heq]; rfl
  · intro st pr a exp
    rcases MultisigWallet.create_shape st pr a exp with ⟨_, he⟩ | ⟨_, _, heq⟩
    · exact Or.inr he
    · left; rw [heq]; rfl
  · intro st seq s pid
    rcases MultisigWallet.approve_shape st seq s pid with
      ⟨_, he⟩ | ⟨p, _, _, _, _, _, _, heq⟩
    · exact Or.inr he
    · left; rw [heq]; rfl
  · intro st seq s pid
    rcases MultisigWallet.revoke_shape st seq s pid with
      ⟨_, he⟩ | ⟨p, _, _, _, _, _, _, heq⟩
    · exact Or.inr he
    · left; rw [heq]; rfl
  · intro st seq ca s pid
    rcases MultisigWallet.execute_shape st seq ca s pid with
      ⟨_, he⟩ | ⟨p, _, _, _, _, _, _, hdisp⟩
    · exact Or.inr he
    · rcases hdisp with ⟨_, _, _, heq⟩ | ⟨_, _, _, _, _, _, heq⟩ <;> (left; rw [heq]; rfl)
  · intro st s t
    rcases MultisigWallet.set_token_shape st s t with ⟨_, he⟩ | ⟨_, _, heq⟩
    · exact Or.inr he
    · left; rw [heq]; rfl

/-- C2 counterexample: in the reachable state `exSt3` (wallet of signers
0 and 1 with threshold 1, holding a quorum-met Active UpdateSigners
proposal whose newSigners list is the duplicated `[5, 5]`), execute
succeeds and installs `[5, 5]` as the stored signer set, so the
no-duplicate-signer invariant does not hold in every reachable state. -/
theorem C2_counterexample :
    Reachable (MultisigWallet.execute exSt3 0 77 0 1).2 ∧
    okB (MultisigWallet.execute exSt3 0 77 0 1).1 = true ∧
    (MultisigWallet.execute exSt3 0 77 0 1).2.signers = [5, 5] ∧
    dupCheck [] (MultisigWallet.execute exSt3 0 77 0 1).2.signers = true := by
  refine ⟨Reachable.step exSt3_reachable (Step.execute exSt3 0 77 0 1), ?_, ?_, ?_⟩ <;> rfl

/-- C2 amended: initialize establishes the no-duplicate-signer invariant,
and every operation other than execute leaves the stored signer set
unchanged; execute either leaves it unchanged or — for an UpdateSigners
action — installs the proposal's newSigners list verbatim, with no
duplicate check, so a duplicated list can become the signer set. -/
theorem C2_no_dup_amended :
    (∀ st sg thr, okB (MultisigWallet.init_wallet st sg thr).1 = true →
       dupCheck [] (MultisigWallet.init_wallet st sg thr).2.signers = false) ∧
    (∀ st pr a exp, (MultisigWallet.create_proposal st pr a exp).2.signers = st.signers) ∧
    (∀ st seq s pid, (MultisigWallet.approve st seq s pid).2.signers = st.signers) ∧
    (∀ st seq s pid,
       (MultisigWallet.revoke_approval st seq s pid).2.signers = st.signers) ∧
    (∀ st s t, (MultisigWallet.set_token st s t).2.signers = st.signers) ∧
    (∀ st seq ca s pid,
       (MultisigWallet.execute st seq ca s pid).2.signers = st.signers ∨
       ∃ p ns nt, lookupProposal st.proposals pid = some p ∧
         p.action = .UpdateSigners ns nt ∧
         (MultisigWallet.execute st seq ca s pid).2.signers = ns) := by
  refine ⟨?_, ?_, ?_, ?_, ?_, ?_⟩
  · intro st sg thr hok
    rcases MultisigWallet.init_wallet_shape st sg thr with
      ⟨hko, _⟩ | ⟨_, _, _, _, hdup, heq⟩
    · rw [hok] at hko; cases hko
    · rw [heq]; exact hdup
  · intro st pr a exp
    rcases MultisigWallet.create_shape st pr a exp with ⟨_, he⟩ | ⟨_, _, heq⟩
    · rw [he]
    · rw [heq]
  · intro st seq s pid
    rcases MultisigWallet.approve_shape st seq s pid with
      ⟨_, he⟩ | ⟨p, _, _, _, _, _, _, heq⟩
    · rw [he]
    · rw [heq]
  · intro st seq s pid
    rcases MultisigWallet.revoke_shape st seq s pid with
      ⟨_, he⟩ | ⟨p, _, _, _, _, _, _, heq⟩
    · rw [he]
    · rw [heq]
  · intro st s t
    rcases MultisigWallet.set_token_shape st s t with ⟨_, he⟩ | ⟨_, _, heq⟩
    · rw [he]
    · rw [heq]
  · intro st seq ca s pid
    rcases MultisigWallet.execute_shape st seq ca s pid with
      ⟨_, he⟩ | ⟨p, hl, _, _, _, _, _, hdisp⟩
    · left; rw [he]
    · rcases hdisp with ⟨_, _, _, heq⟩ | ⟨ns, nt, hAct, _, _, _, heq⟩
      · left; rw [heq]
      · right; exact ⟨p, ns, nt, hl, hAct, by rw [heq]⟩

/-- C2 witness: the amended claim instantiated on a concrete successful
init call. -/
theorem C2_witness :
    dupCheck [] (MultisigWallet.init_wallet MState.empty [0, 1] 1).2.signers = false :=
  C2_no_dup_amended.1 MState.empty [0, 1] 1 (by rfl)

/-- C5 counterexample: `get_proposal` called on the uninitialized fresh
state does not fail with NotInitialized; it skips the initialization
check and fails with ProposalNotFound. -/
theorem C5_counterexample :
    MState.empty.inited = false ∧
    MultisigWallet.get_proposal MState.empty 1 =
      (.error .ProposalNotFound, MState.empty) :=
  ⟨rfl, rfl⟩

/-- C5 amended: get_signers, get_threshold and get_proposal_count fail
with NotInitialized on an uninitialized state and return the stored value
verbatim on an initialized one; get_proposal performs no initialization
check at all — it returns the stored proposal if present and
ProposalNotFound otherwise, whatever the init flag; none of the four
views ever changes the state. -/
theorem C5_views_amended :
    (∀ st, st.inited = false →
       MultisigWallet.get_signers st = (.error .NotInitialized, st) ∧
       MultisigWallet.get_threshold st = (.error .NotInitialized, st) ∧
       MultisigWallet.get_proposal_count st = (.error .NotInitialized, st)) ∧
    (∀ st, st.inited = true →
       MultisigWallet.get_signers st = (.ok st.signers, st) ∧
       MultisigWallet.get_threshold st = (.ok st.threshold, st) ∧
       MultisigWallet.get_proposal_count st = (.ok st.propCount, st)) ∧
    (∀ st pid, (MultisigWallet.get_proposal st pid).2 = st ∧
       (lookupProposal st.proposals pid = none →
         MultisigWallet.get_proposal st pid = (.error .ProposalNotFound, st)) ∧
       (∀ p, lookupProposal st.proposals pid = some p →
         MultisigWallet.get_proposal st pid = (.ok p, st))) := by
  refine ⟨?_, ?_, ?_⟩
  · intro st h
    refine ⟨?_, ?_, ?_⟩ <;>
      simp [MultisigWallet.get_signers, MultisigWallet.get_threshold,
        MultisigWallet.get_proposal_count, MultisigWallet.require_init, h]
  · intro st h
    refine ⟨?_, ?_, ?_⟩ <;>
      simp [MultisigWallet.get_signers, MultisigWallet.get_threshold,
        MultisigWallet.get_proposal_count, MultisigWallet.require_init, h]
  · intro st pid
    refine ⟨rfl, ?_, ?_⟩
    · intro h
      simp [MultisigWallet.get_proposal, MultisigWallet.load_proposal, h]
    · intro p h
      simp [MultisigWallet.get_proposal, MultisigWallet.load_proposal, h]

/-- C5 witness: the amended claim instantiated on the fresh state and on
the concrete initialized state `exSt1`. -/
theorem C5_witness :
    MultisigWallet.get_signers MState.empty = (.error .NotInitialized, MState.empty) ∧
    MultisigWallet.get_signers exSt1 = (.ok [0, 1], exSt1) :=
  ⟨(C5_views_amended.1 MState.empty rfl).1,
   (C5_views_amended.2.1 exSt1 rfl).1⟩

/-- Third example trace from the same initialized wallet: signer 0
proposes a Transfer of amount 5 to address 9, then approves it. -/
def exT2 : MState := (MultisigWallet.create_proposal exSt1 0 (.Transfer 9 5) 100).2

def exT3 : MState := (MultisigWallet.approve exT2 0 0 1).2

/-- Continuing: signer 0 executes it (contract address 77), so proposal 1
is now Executed. -/
def exT4 : MState := (MultisigWallet.execute exT3 0 77 0 1).2

/-- C3: for an Active, unexpired, quorum-met UpdateSigners proposal:
empty newSigners fails with EmptySigners, an out-of-range newThreshold
fails with InvalidThreshold, and in both cases the whole durable state —
hence the proposal's Active status and the stored configuration — is
unchanged; valid parameters overwrite the stored signers and threshold
and mark the proposal Executed in the same call. -/
theorem C3_update_signers_execute (st : MState) (seq : Nat) (ca s : Addr) (pid : Nat)
    (p : Proposal) (ns : List Addr) (nt : Nat)
    (hinit : st.inited = true) (hsig : st.signers.contains s = true)
    (hl : lookupProposal st.proposals pid = some p) (hact : p.status = .Active)
    (hexp : seq ≤ p.expiration) (hq : st.threshold ≤ p.approvals.length)
    (hA : p.action = .UpdateSigners ns nt) :
    (ns = [] → MultisigWallet.execute st seq ca s pid = (.error .EmptySigners, st)) ∧
    (ns ≠ [] → (nt = 0 ∨ ns.length < nt) →
      MultisigWallet.execute st seq ca s pid = (.error .InvalidThreshold, st)) ∧
    (ns ≠ [] → 1 ≤ nt → nt ≤ ns.length →
      MultisigWallet.execute st seq ca s pid = (.ok none,
        { st with signers := ns, threshold := nt,
                  proposals := setProposal st.proposals pid
                    { p with status := .Executed } })) := by
  have h1 := MultisigWallet.require_init_ok hinit
  have h2 := MultisigWallet.require_signer_ok hsig
  have h3 := MultisigWallet.load_proposal_ok hl
  have h4 := MultisigWallet.require_active_ok hact hexp
  unfold MultisigWallet.execute
  simp only [h1, h2, h3, h4]
  rw [if_neg (by omega)]
  simp only [hA]
  refine ⟨?_, ?_, ?_⟩
  · intro hns
    subst hns
    simp
  · intro hns hbad
    rw [if_neg (by simpa using hns), if_pos hbad]
  · intro hns h1t h2t
    rw [if_neg (by simpa using hns), if_neg (by push_neg; omega)]

/-- C3 witness: the valid-parameter case instantiated on the concrete
reachable state `exSt3`. -/
theorem C3_witness :
    MultisigWallet.execute exSt3 0 77 0 1 = (.ok none,
      { exSt3 with signers := [5, 5], threshold := 1,
                   proposals := setProposal exSt3.proposals 1
                     { id := 1, proposer := 0, action := .UpdateSigners [5, 5] 1,
                       approvals := [0], status := .Executed, expiration := 100 } }) :=
  (C3_update_signers_execute exSt3 0 77 0 1
      { id := 1, proposer := 0, action := .UpdateSigners [5, 5] 1,
        approvals := [0], status := .Active, expiration := 100 } [5, 5] 1
      rfl rfl rfl rfl (by decide) (by decide) rfl).2.2
    (by decide) (by decide) (by decide)

/-- C4 counterexample: in the reachable state `exB3` every hypothesis of
the claim holds — initialized wallet, caller 0 a signer, proposal 1
Active and unexpired — and the single approval meets the stored
threshold 1, yet execute fails (EmptySigners) because the proposal's
UpdateSigners parameters are invalid: execute does not succeed whenever
the quorum is met. -/
theorem C4_counterexample :
    Reachable exB3 ∧ exB3.inited = true ∧ exB3.signers.contains 0 = true ∧
    lookupProposal exB3.proposals 1 = some
      { id := 1, proposer := 0, action := .UpdateSigners [] 0, approvals := [0],
        status := .Active, expiration := 100 } ∧
    exB3.threshold ≤ 1 ∧
    MultisigWallet.execute exB3 0 77 0 1 = (.error .EmptySigners, exB3) :=
  ⟨exB3_reachable, rfl, rfl, rfl, by decide, rfl⟩

/-- C4 amended: under the claim's hypotheses, execute fails with
ThresholdNotMet exactly when the approvals count is below the currently
stored threshold (read at execution time); when the quorum is met it
succeeds for a Transfer action and for an UpdateSigners action with valid
parameters, and the only other possible failures are EmptySigners or
InvalidThreshold from an invalid UpdateSigners action. -/
theorem C4_threshold_amended (st : MState) (seq : Nat) (ca s : Addr) (pid : Nat)
    (p : Proposal)
    (hinit : st.inited = true) (hsig : st.signers.contains s = true)
    (hl : lookupProposal st.proposals pid = some p) (hact : p.status = .Active)
    (hexp : seq ≤ p.expiration) :
    ((MultisigWallet.execute st seq ca s pid).1 = .error .ThresholdNotMet ↔
       p.approvals.length < st.threshold) ∧
    (st.threshold ≤ p.approvals.length →
      ((∀ dest amt, p.action = .Transfer dest amt →
          okB (MultisigWallet.execute st seq ca s pid).1 = true) ∧
       (∀ ns nt, p.action = .UpdateSigners ns nt → ns ≠ [] → 1 ≤ nt →
          nt ≤ ns.length →
          okB (MultisigWallet.execute st seq ca s pid).1 = true) ∧
       (okB (MultisigWallet.execute st seq ca s pid).1 = false →
          (MultisigWallet.execute st seq ca s pid).1 = .error .EmptySigners ∨
          (MultisigWallet.execute st seq ca s pid).1 = .error .InvalidThreshold))) := by
  have h1 := MultisigWallet.require_init_ok hinit
  have h2 := MultisigWallet.require_signer_ok hsig
  have h3 := MultisigWallet.load_proposal_ok hl
  have h4 := MultisigWallet.require_active_ok hact hexp
  unfold MultisigWallet.execute
  simp only [h1, h2, h3, h4]
  by_cases hq : p.approvals.length < st.threshold
  · rw [if_pos hq]
    exact ⟨by simp [hq], fun hge => by omega⟩
  · rw [if_neg hq]
    cases hAct : p.action with
    | Transfer dest amt =>
      simp only [hAct]
      refine ⟨by simp [hq], ?_⟩
      intro _
      refine ⟨fun d a _ => rfl, ?_, ?_⟩
      · intro ns nt habs
        cases habs
      · intro habs
        simp [okB] at habs
    | UpdateSigners ns0 nt0 =>
      simp only [hAct]
      by_cases h6 : ns0.isEmpty
      · rw [if_pos h6]
        refine ⟨by simp [hq], ?_⟩
        intro _
        refine ⟨?_, ?_, fun _ => Or.inl rfl⟩
        · intro d a habs
          cases habs
        · intro ns nt habs hne _ _
          injection habs with he1 he2
          subst he1
          exact absurd (by simpa using h6) hne
      · by_cases h7 : nt0 = 0 ∨ ns0.length < nt0
        · rw [if_neg h6, if_pos h7]
          refine ⟨by simp [hq], ?_⟩
          intro _
          refine ⟨?_, ?_, fun _ => Or.inr rfl⟩
          · intro d a habs
            cases habs
          · intro ns nt habs hne h1t h2t
            injection habs with he1 he2
            subst he1
            subst he2
            rcases h7 with h7 | h7 <;> omega
        · rw [if_neg h6, if_neg h7]
          refine ⟨by simp [hq], ?_⟩
          intro _
          refine ⟨?_, fun _ _ _ _ _ _ => rfl, ?_⟩
          · intro d a habs
            cases habs
          · intro habs
            simp [okB] at habs

/-- C4 witness: the amended claim instantiated on the concrete reachable
state `exB3` (quorum met, invalid UpdateSigners parameters). -/
theorem C4_witness :
    (MultisigWallet.execute exB3 0 77 0 1).1 = .error .EmptySigners ∨
    (MultisigWallet.execute exB3 0 77 0 1).1 = .error .InvalidThreshold :=
  ((C4_threshold_amended exB3 0 77 0 1
      { id := 1, proposer := 0, action := .UpdateSigners [] 0, approvals := [0],
        status := .Active, expiration := 100 }
      rfl rfl rfl rfl (by decide)).2 (by decide)).2.2 (by rfl)

/-- C10: executing a Transfer proposal in a state whose token key was
never written (token absent) succeeds, and the token client is
constructed with the contract's own address in place of the missing token
address — the `unwrap_or(contract_addr)` fallback — rather than failing
with any missing-token error. -/
theorem C10_transfer_token_fallback (st : MState) (seq : Nat) (ca s : Addr)
    (pid : Nat) (p : Proposal) (dest : Addr) (amt : Int)
    (hinit : st.inited = true) (hsig : st.signers.contains s = true)
    (hl : lookupProposal st.proposals pid = some p) (hact : p.status = .Active)
    (hexp : seq ≤ p.expiration) (hq : st.threshold ≤ p.approvals.length)
    (hA : p.action = .Transfer dest amt) (htok : st.token = none) :
    MultisigWallet.execute st seq ca s pid = (.ok (some
      { tokenAddr := ca, fromAddr := ca, toAddr := dest, amount := amt }),
      { st with proposals := setProposal st.proposals pid
                  { p with status := .Executed } }) := by
  have h1 := MultisigWallet.require_init_ok hinit
  have h2 := MultisigWallet.require_signer_ok hsig
  have h3 := MultisigWallet.load_proposal_ok hl
  have h4 := MultisigWallet.require_active_ok hact hexp
  unfold MultisigWallet.execute
  simp only [h1, h2, h3, h4]
  rw [if_neg (by omega)]
  simp only [hA, htok]
  rfl

/-- C10 witness: the fallback instantiated on the concrete reachable
state `exT3` (no set_token ever called in its history). -/
theorem C10_witness :
    MultisigWallet.execute exT3 0 77 0 1 = (.ok (some
      { tokenAddr := 77, fromAddr := 77, toAddr := 9, amount := 5 }),
      { exT3 with proposals := setProposal exT3.proposals 1
                    { id := 1, proposer := 0, action := .Transfer 9 5,
                      approvals := [0], status := .Executed, expiration := 100 } }) :=
  C10_transfer_token_fallback exT3 0 77 0 1
    { id := 1, proposer := 0, action := .Transfer 9 5, approvals := [0],
      status := .Active, expiration := 100 } 9 5
    rfl rfl rfl rfl (by decide) (by decide) rfl rfl

theorem MultisigWallet.require_active_executed (seq : Nat) {p : Proposal}
    (h : p.status = .Executed) :
    MultisigWallet.require_active seq p = .error .AlreadyExecuted := by
  simp [MultisigWallet.require_active, h]

theorem MultisigWallet.require_active_expired (seq : Nat) {p : Proposal}
    (h1 : p.status = .Active) (h2 : p.expiration < seq) :
    MultisigWallet.require_active seq p = .error .ProposalExpired := by
  simp only [MultisigWallet.require_active, h1]
  rw [if_neg (by simp), if_pos h2]

theorem exT3_reachable : Reachable exT3 :=
  Reachable.step
    (Reachable.step
      (Reachable.step Reachable.base (Step.init_wallet MState.empty [0, 1] 1))
      (Step.create_proposal exSt1 0 (.Transfer 9 5) 100))
    (Step.approve exT2 0 0 1)

/-- C6: once a stored proposal's status is Executed, approve,
revoke_approval and execute on that id by any current signer of the
initialized wallet all fail with AlreadyExecuted — whatever the current
sequence (expiry) and whatever the approvals — and the Executed status is
irreversible: in every reachable state, any further public operation
leaves an Executed proposal stored verbatim. -/
theorem C6_executed_terminal :
    (∀ st seq c ca pid p, st.inited = true → st.signers.contains c = true →
      lookupProposal st.proposals pid = some p → p.status = .Executed →
      MultisigWallet.approve st seq c pid = (.error .AlreadyExecuted, st) ∧
      MultisigWallet.revoke_approval st seq c pid = (.error .AlreadyExecuted, st) ∧
      MultisigWallet.execute st seq ca c pid = (.error .AlreadyExecuted, st)) ∧
    (∀ st st' pid p, Reachable st → lookupProposal st.proposals pid = some p →
      p.status = .Executed → Step st st' →
      lookupProposal st'.proposals pid = some p) := by
  constructor
  · intro st seq c ca pid p hinit hsig hl hst
    have h1 := MultisigWallet.require_init_ok hinit
    have h2 := MultisigWallet.require_signer_ok hsig
    have h3 := MultisigWallet.load_proposal_ok hl
    have h4 := MultisigWallet.require_active_executed seq hst
    refine ⟨?_, ?_, ?_⟩
    · unfold MultisigWallet.approve
      simp only [h1, h2, h3, h4]
    · unfold MultisigWallet.revoke_approval
      simp only [h1, h2, h3, h4]
    · unfold MultisigWallet.execute
      simp only [h1, h2, h3, h4]
  · intro st st' pid p hre hl hst hs
    cases hs with
    | init_wallet sg thr =>
      rcases MultisigWallet.init_wallet_shape st sg thr with
        ⟨_, he⟩ | ⟨_, _, _, _, _, heq⟩
      · rw [he]; exact hl
      · rw [heq]; exact hl
    | create_proposal pr a exp =>
      rcases MultisigWallet.create_shape st pr a exp with ⟨_, he⟩ | ⟨_, _, heq⟩
      · rw [he]; exact hl
      · have hb := (reachable_inv hre).keys (pid, p) (lookup_mem hl)
        rw [heq]
        exact (lookup_set_ne st.proposals (st.propCount + 1) pid _
          (by simp at hb; omega)).trans hl
    | approve seq s pid2 =>
      rcases MultisigWallet.approve_shape st seq s pid2 with
        ⟨_, he⟩ | ⟨p2, hl2, hact2, _, _, _, _, heq⟩
      · rw [he]; exact hl
      · by_cases hpe : pid = pid2
        · subst hpe
          rw [hl] at hl2
          injection hl2 with he2
          rw [← he2] at hact2
          rw [hst] at hact2
          cases hact2
        · rw [heq]
          exact (lookup_set_ne st.proposals pid2 pid _ hpe).trans hl
    | revoke_approval seq s pid2 =>
      rcases MultisigWallet.revoke_shape st seq s pid2 with
        ⟨_, he⟩ | ⟨p2, hl2, hact2, _, _, _, _, heq⟩
      · rw [he]; exact hl
      · by_cases hpe : pid = pid2
        · subst hpe
          rw [hl] at hl2
          injection hl2 with he2
          rw [← he2] at hact2
          rw [hst] at hact2
          cases hact2
        · rw [heq]
          exact (lookup_set_ne st.proposals pid2 pid _ hpe).trans hl
    | execute seq ca s pid2 =>
      rcases MultisigWallet.execute_shape st seq ca s pid2 with
        ⟨_, he⟩ | ⟨p2, hl2, hact2, _, _, _, _, hdisp⟩
      · rw [he]; exact hl
      · by_cases hpe : pid = pid2
        · subst hpe
          rw [hl] at hl2
          injection hl2 with he2
          rw [← he2] at hact2
          rw [hst] at hact2
          cases hact2
        · rcases hdisp with ⟨_, _, _, heq⟩ | ⟨_, _, _, _, _, _, heq⟩ <;>
            (rw [heq]; exact (lookup_set_ne st.proposals pid2 pid _ hpe).trans hl)
    | set_token s t =>
      rcases MultisigWallet.set_token_shape st s t with ⟨_, he⟩ | ⟨_, _, heq⟩
      · rw [he]; exact hl
      · rw [heq]; exact hl

/-- C6 witness: after the Transfer proposal of `exT3` is executed
(state `exT4`), a further approve and a further execute on id 1 both fail
with AlreadyExecuted. -/
theorem C6_witness :
    MultisigWallet.approve exT4 5 0 1 = (.error .AlreadyExecuted, exT4) ∧
    MultisigWallet.execute exT4 5 77 0 1 = (.error .AlreadyExecuted, exT4) :=
  ⟨(C6_executed_terminal.1 exT4 5 0 77 1
      { id := 1, proposer := 0, action := .Transfer 9 5, approvals := [0],
        status := .Executed, expiration := 100 } rfl rfl rfl rfl).1,
   (C6_executed_terminal.1 exT4 5 0 77 1
      { id := 1, proposer := 0, action := .Transfer 9 5, approvals := [0],
        status := .Executed, expiration := 100 } rfl rfl rfl rfl).2.2⟩

/-- C7: for an Active proposal of an initialized wallet and a signer
caller, if the current sequence strictly exceeds the proposal's
expiration then approve and execute both fail with ProposalExpired and
change nothing — including when the approvals already meet the threshold
(the approvals are arbitrary here); when the current sequence equals the
expiration the expiry guard does not fire: neither call can return
ProposalExpired. -/
theorem C7_expiry (st : MState) (seq : Nat) (ca s : Addr) (pid : Nat) (p : Proposal)
    (hinit : st.inited = true) (hsig : st.signers.contains s = true)
    (hl : lookupProposal st.proposals pid = some p) (hact : p.status = .Active) :
    (p.expiration < seq →
      MultisigWallet.approve st seq s pid = (.error .ProposalExpired, st) ∧
      MultisigWallet.execute st seq ca s pid = (.error .ProposalExpired, st)) ∧
    (MultisigWallet.approve st p.expiration s pid).1 ≠ .error .ProposalExpired ∧
    (MultisigWallet.execute st p.expiration ca s pid).1 ≠ .error .ProposalExpired := by
  have h1 := MultisigWallet.require_init_ok hinit
  have h2 := MultisigWallet.require_signer_ok hsig
  have h3 := MultisigWallet.load_proposal_ok hl
  refine ⟨?_, ?_, ?_⟩
  · intro hlate
    have h4 := MultisigWallet.require_active_expired seq hact hlate
    constructor
    · unfold MultisigWallet.approve
      simp only [h1, h2, h3, h4]
    · unfold MultisigWallet.execute
      simp only [h1, h2, h3, h4]
  · have h4 := MultisigWallet.require_active_ok hact (le_refl p.expiration)
    unfold MultisigWallet.approve
    simp only [h1, h2, h3, h4]
    by_cases h5 : p.approvals.contains s = true
    · rw [if_pos h5]
      simp
    · rw [if_neg h5]
      simp
  · have h4 := MultisigWallet.require_active_ok hact (le_refl p.expiration)
    unfold MultisigWallet.execute
    simp only [h1, h2, h3, h4]
    by_cases h5 : p.approvals.length < st.threshold
    · rw [if_pos h5]
      simp
    · rw [if_neg h5]
      cases hAct : p.action with
      | Transfer dest amt =>
        simp only [hAct]
        simp
      | UpdateSigners ns nt =>
        simp only [hAct]
        by_cases h6 : ns.isEmpty
        · rw [if_pos h6]
          simp
        · by_cases h7 : nt = 0 ∨ ns.length < nt
          · rw [if_neg h6, if_pos h7]
            simp
          · rw [if_neg h6, if_neg h7]
            simp

/-- C7 witness: the expiry rule instantiated on the concrete reachable
state `exT3` (proposal expiring at ledger 100): at sequence 101 approve
fails ProposalExpired; at sequence 100 it does not. -/
theorem C7_witness :
    MultisigWallet.approve exT3 101 0 1 = (.error .ProposalExpired, exT3) ∧
    (MultisigWallet.approve exT3 100 0 1).1 ≠ .error .ProposalExpired :=
  ⟨((C7_expiry exT3 101 77 0 1
      { id := 1, proposer := 0, action := .Transfer 9 5, approvals := [0],
        status := .Active, expiration := 100 } rfl rfl rfl rfl).1 (by decide)).1,
   (C7_expiry exT3 101 77 0 1
      { id := 1, proposer := 0, action := .Transfer 9 5, approvals := [0],
        status := .Active, expiration := 100 } rfl rfl rfl rfl).2.1⟩

theorem MultisigWallet.approve_ok (st : MState) (seq : Nat) (s : Addr) (pid : Nat)
    (p : Proposal)
    (hinit : st.inited = true) (hsig : st.signers.contains s = true)
    (hl : lookupProposal st.proposals pid = some p) (hact : p.status = .Active)
    (hexp : seq ≤ p.expiration) (hno : p.approvals.contains s = false) :
    MultisigWallet.approve st seq s pid = (.ok (),
      { st with proposals := setProposal st.proposals pid
                  { p with approvals := p.approvals ++ [s] } }) := by
  have h1 := MultisigWallet.require_init_ok hinit
  have h2 := MultisigWallet.require_signer_ok hsig
  have h3 := MultisigWallet.load_proposal_ok hl
  have h4 := MultisigWallet.require_active_ok hact hexp
  unfold MultisigWallet.approve
  simp only [h1, h2, h3, h4]
  rw [if_neg (by simpa using hno)]

theorem MultisigWallet.revoke_ok (st : MState) (seq : Nat) (s : Addr) (pid : Nat)
    (p : Proposal)
    (hinit : st.inited = true) (hsig : st.signers.contains s = true)
    (hl : lookupProposal st.proposals pid = some p) (hact : p.status = .Active)
    (hexp : seq ≤ p.expiration) (hf : (removeFirst s p.approvals).1 = true) :
    MultisigWallet.revoke_approval st seq s pid = (.ok (),
      { st with proposals := setProposal st.proposals pid
                  { p with approvals := (removeFirst s p.approvals).2 } }) := by
  have h1 := MultisigWallet.require_init_ok hinit
  have h2 := MultisigWallet.require_signer_ok hsig
  have h3 := MultisigWallet.load_proposal_ok hl
  have h4 := MultisigWallet.require_active_ok hact hexp
  unfold MultisigWallet.revoke_approval
  simp only [h1, h2, h3, h4]
  rw [if_pos hf]

/-- C8: for a signer not yet among an Active, unexpired proposal's
approvals, approve followed by revoke_approval by that signer restores
the entire durable state — in particular the proposal's approvals list,
element for element and in order — and therefore the approve/revoke round
trip can be repeated any number of times. -/
theorem C8_approve_revoke_roundtrip (st : MState) (seq : Nat) (s : Addr) (pid : Nat)
    (p : Proposal)
    (hinit : st.inited = true) (hsig : st.signers.contains s = true)
    (hl : lookupProposal st.proposals pid = some p) (hact : p.status = .Active)
    (hexp : seq ≤ p.expiration) (hno : p.approvals.contains s = false) :
    okB (MultisigWallet.approve st seq s pid).1 = true ∧
    MultisigWallet.revoke_approval (MultisigWallet.approve st seq s pid).2 seq s pid
      = (.ok (), st) ∧
    ∀ n, (fun σ => (MultisigWallet.revoke_approval
        (MultisigWallet.approve σ seq s pid).2 seq s pid).2)^[n] st = st := by
  have hsm : s ∉ p.approvals := by simpa using hno
  have hrm := removeFirst_append_self hsm
  have happ := MultisigWallet.approve_ok st seq s pid p hinit hsig hl hact hexp hno
  have hrev := MultisigWallet.revoke_ok
    { st with proposals := setProposal st.proposals pid
                { p with approvals := p.approvals ++ [s] } }
    seq s pid { p with approvals := p.approvals ++ [s] }
    hinit hsig (lookup_set_self _ _ _) hact hexp (by simp [hrm])
  have hp2 : ({ { p with approvals := p.approvals ++ [s] } with
      approvals := (removeFirst s
        ({ p with approvals := p.approvals ++ [s] } : Proposal).approvals).2 }
      : Proposal) = p := by
    simp [hrm]
  rw [hp2] at hrev
  have hW : setProposal (setProposal st.proposals pid
      { p with approvals := p.approvals ++ [s] }) pid p = st.proposals :=
    set_set_cancel _ hl
  have hsnd : (MultisigWallet.approve st seq s pid).2 =
      { st with proposals := setProposal st.proposals pid
                  { p with approvals := p.approvals ++ [s] } } := by
    rw [happ]
  have hfix : MultisigWallet.revoke_approval
      (MultisigWallet.approve st seq s pid).2 seq s pid = (.ok (), st) := by
    rw [hsnd, hrev]
    simp [hW]
  refine ⟨by rw [happ]; rfl, hfix, ?_⟩
  intro n
  exact Function.iterate_fixed (by rw [hfix]) n

/-- C8 witness: the round trip instantiated on the concrete reachable
state `exT2` with signer 1 (not among the proposal's approvals). -/
theorem C8_witness :
    MultisigWallet.revoke_approval (MultisigWallet.approve exT2 0 1 1).2 0 1 1
      = (.ok (), exT2) :=
  (C8_approve_revoke_roundtrip exT2 0 1 1
    { id := 1, proposer := 0, action := .Transfer 9 5, approvals := [],
      status := .Active, expiration := 100 }
    rfl rfl rfl rfl (by decide) rfl).2.1

/-- C9: in every reachable state every stored proposal's approvals vector
is duplicate-free: create_proposal stores it empty, approve refuses a
signer already present (AlreadyApproved) before appending, and the other
operations never add entries. -/
theorem C9_approvals_nodup :
    (∀ st pid p, Reachable st → lookupProposal st.proposals pid = some p →
       p.approvals.Nodup) ∧
    (∀ st seq s pid p, lookupProposal st.proposals pid = some p →
       p.approvals.contains s = true → st.inited = true →
       st.signers.contains s = true → p.status = .Active → seq ≤ p.expiration →
       MultisigWallet.approve st seq s pid = (.error .AlreadyApproved, st)) := by
  constructor
  · intro st pid p hre hl
    exact (reachable_inv hre).apNodup (pid, p) (lookup_mem hl)
  · intro st seq s pid p hl hc hinit hsig hact hexp
    have h1 := MultisigWallet.require_init_ok hinit
    have h2 := MultisigWallet.require_signer_ok hsig
    have h3 := MultisigWallet.load_proposal_ok hl
    have h4 := MultisigWallet.require_active_ok hact hexp
    unfold MultisigWallet.approve
    simp only [h1, h2, h3, h4]
    rw [if_pos hc]

/-- C9 witness: the invariant and the AlreadyApproved guard instantiated
on the concrete reachable state `exT3`. -/
theorem C9_witness :
    ([0] : List Addr).Nodup ∧
    MultisigWallet.approve exT3 0 0 1 = (.error .AlreadyApproved, exT3) :=
  ⟨C9_approvals_nodup.1 exT3 1
      { id := 1, proposer := 0, action := .Transfer 9 5, approvals := [0],
        status := .Active, expiration := 100 } exT3_reachable rfl,
   C9_approvals_nodup.2 exT3 0 0 1
      { id := 1, proposer := 0, action := .Transfer 9 5, approvals := [0],
        status := .Active, expiration := 100 } rfl rfl rfl rfl rfl (by decide)⟩
